import Mathlib

/-!
Verification of the response-parsing and agent control-loop subsystem of the
quantafold repository (`src/core/agent.py`, `src/models/response.py`,
`src/models/response_xml_parser.py`, `src/models/response_bs4_xml_parser.py`,
`src/models/response_parser.py`, `src/models/tool.py`).

The Python code is shallowly embedded: methods become pure functions, the
mutable `Agent` object becomes explicit state passing, Python exceptions become
`Except String` values carrying the exception message (a Python
`traceback.format_exc()` dump is abstracted to the exception's message string),
and the external model client (`GenerativeModel.generate`, called exactly once
per thinking iteration) is abstracted as a function from the iteration number
to the reply text or a transport error.
-/

namespace Quantafold

/-! ## Python string helpers -/

/-- The ASCII characters matched by Python's regex class `\s` and stripped by
`str.strip()`. -/
def isPySpace (c : Char) : Bool :=
  c = ' ' || c = '\t' || c = '\n' || c = '\r' || c = '\x0b' || c = '\x0c'

def dropWS (cs : List Char) : List Char :=
  cs.dropWhile isPySpace

/-- Strip leading and trailing whitespace, as Python `str.strip()`. -/
def trimWS (cs : List Char) : List Char :=
  (dropWS ((dropWS cs.reverse).reverse))

def pyStrip (s : String) : String :=
  ⟨trimWS s.data⟩

/-- Python `str.replace`, fuel-indexed so that it is structurally recursive:
replace every non-overlapping occurrence of `pat`, scanning left to right.
The fuel only needs to dominate the number of scanning steps, which is at most
the length of the text. -/
def replaceAllFuel (pat rep : List Char) : Nat → List Char → List Char
  | 0, cs => cs
  | _ + 1, [] => []
  | fuel + 1, c :: rest =>
    if pat ≠ [] && pat.isPrefixOf (c :: rest) then
      rep ++ replaceAllFuel pat rep fuel ((c :: rest).drop pat.length)
    else
      c :: replaceAllFuel pat rep fuel rest

/-- Python `str.replace` on char lists. -/
def replaceAll (pat rep cs : List Char) : List Char :=
  replaceAllFuel pat rep cs.length cs

def pyReplace (s pat rep : String) : String :=
  ⟨replaceAll pat.data rep.data s.data⟩

/-! ## `Agent._first_xml_code_block`

The source uses two regex searches:
```
match = re.search(r"```xml\s*([\s\S]*?)\s*```", input)
if not match:
    match = re.search(r"(<response>[\\s\S]*?</response>)", input)
```
The first takes, at the first occurrence of the fence opener, the content up to
the first subsequent closing fence, with surrounding whitespace stripped (the
outer `\s*` are greedy and the group is lazy).  The second raw string contains a
double backslash, so its character class is `{'\\', 's'} ∪ \S`, i.e. exactly
the non-whitespace characters: it only matches a `<response>...</response>`
substring whose interior has no whitespace at all, and `re.search` moves on to a
later `<response>` occurrence when the interior of an earlier one contains
whitespace. -/

def fenceOpen : List Char := "```xml".data

def fenceClose : List Char := "```".data

/-- Characters before the first closing fence, or `none` when there is none. -/
def upToFence : List Char → Option (List Char)
  | [] => none
  | c :: rest =>
    if fenceClose.isPrefixOf (c :: rest) then some []
    else (upToFence rest).map (fun pre => c :: pre)

/-- Leftmost match of ```` ```xml\s*([\s\S]*?)\s*``` ````, returning group 1. -/
def findFenceBlock : List Char → Option (List Char)
  | [] => none
  | c :: rest =>
    if fenceOpen.isPrefixOf (c :: rest) then
      match upToFence ((c :: rest).drop 6) with
      | some content => some (trimWS content)
      | none => none
    else findFenceBlock rest

def respOpen : List Char := "<response>".data

def respClose : List Char := "</response>".data

/-- The lazy run of the (buggy) class `[\\s\S]` — i.e. non-whitespace
characters — up to the closing tag, checking the terminator first. -/
def grabRespBody : List Char → Option (List Char)
  | [] => none
  | c :: rest =>
    if respClose.isPrefixOf (c :: rest) then some []
    else if isPySpace c then none
    else (grabRespBody rest).map (fun body => c :: body)

/-- Leftmost match of `(<response>[\\s\S]*?</response>)`: scan every start
position, as `re.search` does when the lazy body fails at an earlier one. -/
def findRespSub : List Char → Option (List Char)
  | [] => none
  | c :: rest =>
    if respOpen.isPrefixOf (c :: rest) then
      match grabRespBody ((c :: rest).drop 10) with
      | some body => some (respOpen ++ body ++ respClose)
      | none => findRespSub rest
    else findRespSub rest

/-- `Agent._first_xml_code_block`. -/
def firstXmlCodeBlock (input : String) : Option String :=
  match findFenceBlock input.data with
  | some content => some ⟨content⟩
  | none =>
    match findRespSub input.data with
    | some sub => some ⟨sub⟩
    | none => none

/-! ## Interpolation (`Agent._replace_interpolated_variables`)

`self.step_results` is a Python `dict[str, str]`; it is embedded as an
association list in insertion order, with `d[k] = v` embedded as
`updateAssoc`, which overwrites in place or appends. -/

def updateAssoc (k v : String) : List (String × String) → List (String × String)
  | [] => [(k, v)]
  | (k', v') :: rest =>
    if k' = k then (k, v) :: rest else (k', v') :: updateAssoc k v rest

def lookupAssoc (l : List (String × String)) (k : String) : Option String :=
  match l.find? (fun kv => kv.1 = k) with
  | some kv => some kv.2
  | none => none

/-- `Agent._replace_interpolated_variables`: iterate over the variables in
insertion order, replacing every `$name$` occurrence. -/
def replaceInterpolatedVariables (text : String)
    (vars : List (String × String)) : String :=
  vars.foldl (fun t kv => pyReplace t ("$" ++ kv.1 ++ "$") kv.2) text

/-- Decidable equality for `Except`, giving `decide` access to parser
results. -/
def exceptDecEq {ε α : Type} [DecidableEq ε] [DecidableEq α] :
    (a b : Except ε α) → Decidable (a = b)
  | .error a, .error b =>
    if h : a = b then .isTrue (by rw [h]) else .isFalse (fun hc => by cases hc; exact h rfl)
  | .error _, .ok _ => .isFalse (fun hc => by cases hc)
  | .ok _, .error _ => .isFalse (fun hc => by cases hc)
  | .ok a, .ok b =>
    if h : a = b then .isTrue (by rw [h]) else .isFalse (fun hc => by cases hc; exact h rfl)

instance {ε α : Type} [DecidableEq ε] [DecidableEq α] : DecidableEq (Except ε α) :=
  exceptDecEq

/-! ## Data model (`src/models/response.py`, pydantic models)

`Step.arguments` and `Action.arguments` are Python `dict[str, Any]` holding the
string argument values produced by the parsers; they are embedded as
association lists in insertion order. -/

structure Step where
  name : String
  description : String
  reason : String
  result : Option String
  tool_name : Option String
  arguments : List (String × String)
  depends_on_steps : List String
deriving DecidableEq

structure Thought where
  reasoning : String
  to_do : List Step
  done : List Step
deriving DecidableEq

structure Action where
  step_name : String
  tool_name : String
  reason : String
  arguments : List (String × String)
  result : Option String
deriving DecidableEq

/-- `Response` with `action_result`: the agent assigns `response.action_result`
dynamically (the pydantic model has `extra = Extra.allow`); parsers always
produce it as `none`. -/
structure Response where
  thought : Option Thought
  action : Option Action
  final_answer : Option String
  action_result : Option String
deriving DecidableEq

/-! ## XML element trees

`lxml.etree` and `BeautifulSoup(..., "xml")` are external libraries; they are
modelled by one reader over the attribute-free, CDATA-free XML fragment that
the response formats use.  An element has a tag, the text before its first
child (`.text` in lxml, `None` when empty), and child elements; text around
and between child elements must be whitespace (mixed content is not part of
the exchanged formats and is rejected by the reader). -/

mutual
inductive XNode where
  | elem : String → Option String → XNodes → XNode
inductive XNodes where
  | nil : XNodes
  | cons : XNode → XNodes → XNodes
end

def XNode.tag : XNode → String
  | .elem t _ _ => t

def XNode.text : XNode → Option String
  | .elem _ x _ => x

def XNode.children : XNode → XNodes
  | .elem _ _ kids => kids

def XNodes.toList : XNodes → List XNode
  | .nil => []
  | .cons e rest => e :: rest.toList

def isNameChar (c : Char) : Bool :=
  c.isAlphanum || c = '_' || c = '-' || c = '.' || c = ':'

def optText (txt : List Char) : Option String :=
  if txt = [] then none else some ⟨txt⟩

/-- Read element content: the leading text, then sibling elements separated by
whitespace, stopping before a closing tag or the end of input. -/
def pxContent (fuel : Nat) (cs : List Char) : Except String (List Char × XNodes × List Char) :=
  match fuel with
  | 0 => .error "xml reader: out of fuel"
  | fuel + 1 =>
    let txt := cs.takeWhile (fun c => c ≠ '<')
    let rest := cs.dropWhile (fun c => c ≠ '<')
    match rest with
    | [] => .ok (txt, .nil, [])
    | '<' :: '/' :: closing => .ok (txt, .nil, '<' :: '/' :: closing)
    | '<' :: afterLt =>
      let nm := afterLt.takeWhile isNameChar
      let afterNm := afterLt.dropWhile isNameChar
      if nm = [] then .error "xml reader: expected tag name"
      else
        match afterNm with
        | '/' :: '>' :: afterTag =>
          match pxContent fuel afterTag with
          | .error e => .error e
          | .ok (tailTxt, sibs, rest') =>
            if tailTxt.all isPySpace then
              .ok (txt, .cons (.elem ⟨nm⟩ none .nil) sibs, rest')
            else .error "xml reader: mixed content"
        | '>' :: afterTag =>
          match pxContent fuel afterTag with
          | .error e => .error e
          | .ok (innerTxt, innerKids, afterInner) =>
            match afterInner with
            | '<' :: '/' :: afterClose =>
              let nm2 := afterClose.takeWhile isNameChar
              let afterNm2 := afterClose.dropWhile isNameChar
              if nm2 = nm then
                match afterNm2 with
                | '>' :: afterTag2 =>
                  match pxContent fuel afterTag2 with
                  | .error e => .error e
                  | .ok (tailTxt, sibs, rest') =>
                    if tailTxt.all isPySpace then
                      .ok (txt, .cons (.elem ⟨nm⟩ (optText innerTxt) innerKids) sibs, rest')
                    else .error "xml reader: mixed content"
                | _ => .error "xml reader: malformed closing tag"
              else .error "xml reader: mismatched closing tag"
            | _ => .error "xml reader: missing closing tag"
        | _ => .error "xml reader: malformed tag"
    | _ :: _ => .error "xml reader: stray character"

/-- `etree.fromstring` / the soup constructor, on the exchanged fragment: one
root element, surrounding whitespace allowed. -/
def xmlFromstring (s : String) : Except String XNode :=
  match pxContent (2 * s.length + 4) (dropWS s.data) with
  | .error e => .error e
  | .ok (txt, .cons node .nil, rest) =>
    if txt = [] && (dropWS rest).isEmpty then .ok node
    else .error "xml reader: stray content"
  | .ok _ => .error "xml reader: expected exactly one root element"

/-! ## Tree accessors

`lxml` `Element.find`/`findall` search direct children only; BeautifulSoup
`Tag.find`/`find_all` search all descendants in document (preorder) order, and
an element is falsy exactly when it has no contents. -/

def xnodesFindDirect (tag : String) : XNodes → Option XNode
  | .nil => none
  | .cons c rest => if c.tag = tag then some c else xnodesFindDirect tag rest

/-- `lxml` `element.find(tag)`: first direct child with the tag. -/
def etreeFind (e : XNode) (tag : String) : Option XNode :=
  xnodesFindDirect tag e.children

/-- `lxml` `element.findall(tag)`: all direct children with the tag. -/
def xnodesFilterDirect (tag : String) : XNodes → List XNode
  | .nil => []
  | .cons c rest =>
    if c.tag = tag then c :: xnodesFilterDirect tag rest else xnodesFilterDirect tag rest

mutual
/-- Preorder search of a node and its subtree (BeautifulSoup document order). -/
def findTagN (tag : String) : XNode → Option XNode
  | .elem t x kids =>
    if t = tag then some (.elem t x kids) else findTag tag kids
/-- Preorder search of a forest. -/
def findTag (tag : String) : XNodes → Option XNode
  | .nil => none
  | .cons e rest =>
    match findTagN tag e with
    | some r => some r
    | none => findTag tag rest
end

mutual
def findAllTagN (tag : String) : XNode → List XNode
  | .elem t x kids =>
    (if t = tag then [XNode.elem t x kids] else []) ++ findAllTag tag kids
def findAllTag (tag : String) : XNodes → List XNode
  | .nil => []
  | .cons e rest => findAllTagN tag e ++ findAllTag tag rest
end

mutual
/-- No node in the subtree carries the tag. -/
def absentTagN (tag : String) : XNode → Bool
  | .elem t _ kids => (!(t = tag)) && absentTag tag kids
def absentTag (tag : String) : XNodes → Bool
  | .nil => true
  | .cons e rest => absentTagN tag e && absentTag tag rest
end

mutual
/-- BeautifulSoup `get_text()` (the `.text` property): all text of the subtree.
Whitespace between sibling elements is dropped by the reader, so it is absent
here as well. -/
def xGetText : XNode → String
  | .elem _ x kids => (x.getD "") ++ xGetTextL kids
def xGetTextL : XNodes → String
  | .nil => ""
  | .cons e rest => xGetText e ++ xGetTextL rest
end

mutual
/-- `str(tag)` for an element: its markup. -/
def xSerialize : XNode → String
  | .elem t none .nil => "<" ++ t ++ "/>"
  | .elem t x kids => "<" ++ t ++ ">" ++ (x.getD "") ++ xSerializeL kids ++ "</" ++ t ++ ">"
def xSerializeL : XNodes → String
  | .nil => ""
  | .cons e rest => xSerialize e ++ xSerializeL rest
end

mutual
/-- BeautifulSoup `.string`: the single string child, descending through a
single element child. -/
def xString : XNode → Option String
  | .elem _ (some t) .nil => some t
  | .elem _ none kids => xStringKids kids
  | _ => none
def xStringKids : XNodes → Option String
  | .cons c .nil => xString c
  | _ => none
end

/-- A BeautifulSoup element is falsy exactly when it has no contents. -/
def xEmpty (e : XNode) : Bool :=
  e.text.isNone && (match e.children with | .nil => true | _ => false)

/-- Truthiness of `find`'s result (`None` and empty elements are falsy). -/
def xTruthyOpt : Option XNode → Bool
  | none => false
  | some e => !(xEmpty e)

/-- Python `A or B` on two `find` results. -/
def orTag (a b : Option XNode) : Option XNode :=
  if xTruthyOpt a then a else b

/-- `ResponseBs4XmlParser._get_text_or_cdata`: join of the element's contents
(leading text plus serialized child markup), stripped; `""` for `None` or a
falsy element. -/
def getTextOrCdata : Option XNode → String
  | none => ""
  | some e => if xEmpty e then "" else pyStrip ((e.text.getD "") ++ xSerializeL e.children)

/-! ## Strict parser (`src/models/response_xml_parser.py`) and the pydantic
layer of `src/models/response.py` -/

/-- `ResponseXmlParser._safe_find_text`. -/
def safeFindText (element : Option XNode) (path : String) (dflt : String) : String :=
  match element with
  | none => dflt
  | some e =>
    match etreeFind e path with
    | none => dflt
    | some found =>
      match found.text with
      | none => dflt
      | some t => t

/-- `ResponseXmlParser._parse_steps`: the step dicts it builds, already
validated into `Step` (all required fields are present by construction; the
pydantic `Step` model strips whitespace from `name`). -/
def xmlParseSteps (parentElem : Option XNode) (stepContainer : String) : List Step :=
  match parentElem with
  | none => []
  | some parent =>
    match etreeFind parent stepContainer with
    | none => []
    | some container =>
      (xnodesFilterDirect "step" container.children).map (fun step =>
        let dependsOn : List String :=
          match etreeFind step "depends_on_steps" with
          | none => []
          | some dependsElem =>
            (xnodesFilterDirect "step_name" dependsElem.children).filterMap XNode.text
        { name := pyStrip (safeFindText (some step) "name" "unnamed_step"),
          description := safeFindText (some step) "description" "",
          reason := safeFindText (some step) "reason" "",
          result := some (safeFindText (some step) "result" ""),
          tool_name := none,
          arguments := [],
          depends_on_steps := dependsOn })

/-- `ResponseXmlParser._parse_arguments`. -/
def xmlParseArguments (actionElem : Option XNode) : List (String × String) :=
  match actionElem with
  | none => []
  | some action =>
    match etreeFind action "arguments" with
    | none => []
    | some argsElem =>
      (xnodesFilterDirect "arg" argsElem.children).foldl (fun acc arg =>
        let nm := safeFindText (some arg) "name" ""
        let v := safeFindText (some arg) "value" ""
        if nm ≠ "" then updateAssoc nm v acc else acc) []

/-- The value the strict parser binds to the `thought` key: a plain string in
format 2, a dict (already validated into `Thought`) in format 1. -/
inductive PyThought where
  | pstr : String → PyThought
  | pobj : Thought → PyThought

/-- The `action` dict the strict parser builds.  The source builds it with keys
`tool_name`, `reason` and `arguments` only, so `step_name` is `none` there. -/
structure PyActionData where
  step_name : Option String
  tool_name : String
  reason : String
  arguments : List (String × String)

structure PyResponseData where
  thought : Option PyThought
  action : Option PyActionData
  answer : Option String

/-- `Response(**response_data)` under pydantic v2.  Field validation: `thought`
must be a `Thought` dict (a plain string is rejected), `action` must carry the
required `step_name` (its absence is rejected), `step_name` and `tool_name`
are whitespace-stripped, and the extra `answer` key is allowed and ignored
(`Extra.allow`), leaving `final_answer` unset.  The `validate_response`
pre-validator tests `"answer" in values` over previously validated declared
fields; `answer` is not a declared field, so the test never succeeds and the
validator never raises (dead code), hence it is omitted. -/
def pydanticValidate (d : PyResponseData) : Except String Response :=
  match d.thought with
  | some (.pstr _) => .error "thought: input should be a valid Thought"
  | th =>
    let thoughtVal : Option Thought :=
      match th with
      | some (.pobj t) => some t
      | _ => none
    match d.action with
    | none =>
      .ok { thought := thoughtVal, action := none, final_answer := none, action_result := none }
    | some ad =>
      match ad.step_name with
      | none => .error "action.step_name: field required"
      | some sn =>
        .ok { thought := thoughtVal,
              action := some { step_name := pyStrip sn, tool_name := pyStrip ad.tool_name,
                               reason := ad.reason, arguments := ad.arguments, result := none },
              final_answer := none, action_result := none }

/-- `ResponseXmlParser.parse`. -/
def responseXmlParserParse (xmlData : String) : Except String Response :=
  match xmlFromstring xmlData with
  | .error _ => .error "Malformed XML data."
  | .ok root =>
    let d : PyResponseData :=
      if (etreeFind root "answer").isSome then
        { thought := some (.pstr (safeFindText (some root) "thought" "")),
          action := none,
          answer := some (safeFindText (some root) "answer" "") }
      else
        { thought := some (.pobj
            { reasoning := safeFindText (etreeFind root "thought") "reasoning" "",
              to_do := xmlParseSteps (etreeFind root "thought") "to_do",
              done := xmlParseSteps (etreeFind root "thought") "done" }),
          action := some
            { step_name := none,
              tool_name := safeFindText (etreeFind root "action") "tool_name" "no_tool",
              reason := safeFindText (etreeFind root "action") "reason" "",
              arguments := xmlParseArguments (etreeFind root "action") },
          answer := none }
    match pydanticValidate d with
    | .ok r => .ok r
    | .error _ => .error "Validation error while creating Response object."

/-! ## Lenient parser (`src/models/response_bs4_xml_parser.py`) -/

/-- `ResponseBs4XmlParser._parse_step`. -/
def bs4ParseStep (stepElem : XNode) : Except String Step :=
  let nameElem := findTag "name" stepElem.children
  let nElem := findTag "n" stepElem.children
  if !xTruthyOpt nameElem && !xTruthyOpt nElem then .error "Step name is mandatory"
  else if !xTruthyOpt (findTag "description" stepElem.children) then
    .error "Step description is mandatory"
  else if !xTruthyOpt (findTag "reason" stepElem.children) then
    .error "Step reason is mandatory"
  else
    let picked := orTag nameElem nElem
    let name :=
      match picked with
      | some e => pyStrip (xGetText e)
      | none => ""
    let resultElem := orTag (findTag "result" stepElem.children) (findTag "r" stepElem.children)
    let dependsElem :=
      orTag (findTag "depends_on_steps" stepElem.children) (findTag "depends_on" stepElem.children)
    .ok { name := pyStrip name,
          description := getTextOrCdata (findTag "description" stepElem.children),
          reason := getTextOrCdata (findTag "reason" stepElem.children),
          result := if xTruthyOpt resultElem then some (getTextOrCdata resultElem) else none,
          tool_name := none,
          arguments := [],
          depends_on_steps :=
            if xTruthyOpt dependsElem then
              match dependsElem with
              | some de => (findAllTag "step_name" de.children).map (fun d => pyStrip (xGetText d))
              | none => []
            else [] }

/-- `ResponseBs4XmlParser._parse_arguments`: direct children of `<arguments>`
that have a single string content. -/
def bs4ParseArguments (actionElem : XNode) : List (String × String) :=
  if xEmpty actionElem then []
  else
    match findTag "arguments" actionElem.children with
    | none => []
    | some argsElem =>
      if xEmpty argsElem then []
      else
        argsElem.children.toList.foldl (fun acc arg =>
          match xString arg with
          | some s => if s ≠ "" then updateAssoc arg.tag (pyStrip s) acc else acc
          | none => acc) []

/-- The body of `ResponseBs4XmlParser.parse` after the soup is built.  The dead
construction of a throwaway `Thought` (line 98) and the duplicate
`final_answer` lookup (lines 106-110) have no effect and are omitted; a missing
`step_name`/`tool_name` raises `AttributeError` on the `None.get_text()` call,
whose message the generic handler stringifies. -/
def bs4Body (root : XNode) : Except String Response :=
  match findTag "response" (XNodes.cons root .nil) with
  | none => .error "Missing response element"
  | some respElem =>
    if xEmpty respElem then .error "Missing response element"
    else
      match findTag "thought" respElem.children with
      | none => .error "Missing or empty thought element"
      | some thoughtElem =>
        if xEmpty thoughtElem then .error "Missing or empty thought element"
        else if pyStrip (xGetText thoughtElem) = "" then .error "Missing or empty thought element"
        else
          let finalAnswerElem := findTag "final_answer" respElem.children
          if xTruthyOpt finalAnswerElem then
            .ok { thought := some { reasoning := getTextOrCdata (some thoughtElem),
                                    to_do := [], done := [] },
                  action := none,
                  final_answer := some (getTextOrCdata finalAnswerElem),
                  action_result := none }
          else
            match findTag "action" respElem.children with
            | none => .error "Missing action element"
            | some actionElem =>
              if xEmpty actionElem then .error "Missing action element"
              else
                let toDoCont := findTag "to_do" thoughtElem.children
                let toDoRes : Except String (List Step) :=
                  if xTruthyOpt toDoCont then
                    match toDoCont with
                    | some cont => (findAllTag "step" cont.children).mapM bs4ParseStep
                    | none => .ok []
                  else .ok []
                match toDoRes with
                | .error e => .error e
                | .ok toDoSteps =>
                  let doneCont := findTag "done" thoughtElem.children
                  let doneRes : Except String (List Step) :=
                    if xTruthyOpt doneCont then
                      match doneCont with
                      | some cont => (findAllTag "step" cont.children).mapM bs4ParseStep
                      | none => .ok []
                    else .ok []
                  match doneRes with
                  | .error e => .error e
                  | .ok doneSteps =>
                    match findTag "step_name" actionElem.children with
                    | none => .error "'NoneType' object has no attribute 'get_text'"
                    | some stepNameElem =>
                      match findTag "tool_name" actionElem.children with
                      | none => .error "'NoneType' object has no attribute 'get_text'"
                      | some toolNameElem =>
                        .ok { thought := some
                                { reasoning := getTextOrCdata (findTag "reasoning" thoughtElem.children),
                                  to_do := toDoSteps, done := doneSteps },
                              action := some
                                { step_name := pyStrip (xGetText stepNameElem),
                                  tool_name := pyStrip (xGetText toolNameElem),
                                  reason := getTextOrCdata (findTag "reason" actionElem.children),
                                  arguments := bs4ParseArguments actionElem,
                                  result := none },
                              final_answer := none,
                              action_result := none }

/-- `ResponseBs4XmlParser.parse`: the whole body runs under a handler that
wraps any exception message.  BeautifulSoup itself recovers from markup the
reader rejects; those inputs are mapped to an error here, and no theorem below
depends on them. -/
def responseBs4XmlParserParse (xmlData : String) : Except String Response :=
  match xmlFromstring xmlData with
  | .error e => .error ("Error parsing XML data: " ++ e)
  | .ok root =>
    match bs4Body root with
    | .error e => .error ("Error parsing XML data: " ++ e)
    | .ok r => .ok r

/-- `ResponseParser.parse`: the strict parser first, the lenient parser second,
a combined error when both fail. -/
def responseParserParse (xmlData : String) : Except String Response :=
  match responseXmlParserParse xmlData with
  | .ok r => .ok r
  | .error _ =>
    match responseBs4XmlParserParse xmlData with
    | .ok r => .ok r
    | .error _ => .error "Failed to parse XML data with available parsers."

/-! ## Tools (`src/models/tool.py`) and the agent (`src/core/agent.py`)

A tool's `execute(**kwargs)` is an external collaborator: it is embedded as a
function from the named arguments to its string result or the message of the
exception it raised.  `GenerativeModel.generate` (one call per thinking
iteration) is a function from the iteration number to the reply content or a
transport-error message, and `console.input` for approval is an oracle. -/

/-- The declared argument types: `Literal["string", "int"]`. -/
inductive ArgType where
  | string
  | int
deriving DecidableEq

structure ToolArgument where
  name : String
  type : ArgType
  description : Option String
  required : Bool
  default : Option String

structure Tool where
  name : String
  description : String
  arguments : List ToolArgument
  need_validation : Bool
  execute : List (String × String) → Except String String

structure Env where
  generate : Nat → Except String String
  approve : String → Action → Bool

inductive AgentStateTag where
  | ready
  | thinking
  | deciding
  | error
  | complete
deriving DecidableEq

/-- The mutable state of an `Agent` object.  `tools` is the `dict[str, Tool]`
keyed by upper-cased name; `step_results` is the `dict[str, str]` of
interpolation variables. -/
structure Agent where
  tools : List (String × Tool)
  memory : List Response
  to_do_steps : List Step
  done_steps : List Step
  step_results : List (String × String)
  final_answer : Option String
  query : String
  max_iterations : Nat
  current_iteration : Nat
  state : AgentStateTag

/-- Python `str.upper()` (character-wise; the tool names in play are ASCII). -/
def pyUpper (s : String) : String :=
  ⟨s.data.map Char.toUpper⟩

def lookupTool (tools : List (String × Tool)) (k : String) : Option Tool :=
  match tools.find? (fun kv => kv.1 = k) with
  | some kv => some kv.2
  | none => none

/-- The named-argument dict built inside `Agent._handle_action`: keys with
`-`/space turned into `_`, values interpolated against `step_results`. -/
def namedArguments (args : List (String × String))
    (stepResults : List (String × String)) : List (String × String) :=
  args.foldl (fun acc kv =>
    updateAssoc (pyReplace (pyReplace kv.1 "-" "_") " " "_")
      (replaceInterpolatedVariables kv.2 stepResults) acc) []

/-- `Agent._handle_action`.  The unknown-tool and unapproved cases return
observation strings.  The `except` handler, however, calls
`Text(error_trace).escape()`, and `rich.text.Text` has no `escape` method, so
when `tool.execute` raises, the handler itself raises `AttributeError` before
reaching its `return`: the `Error executing tool` observation is unreachable
and a tool exception escapes `_handle_action` as that `AttributeError` instead
of being reported. -/
def handleAction (env : Env) (a : Agent) (action : Action) : Except String String :=
  let toolName := pyUpper action.tool_name
  match lookupTool a.tools toolName with
  | none => .ok ("Tool not found: " ++ toolName)
  | some tool =>
    if tool.need_validation && !env.approve toolName action then
      .ok "Action not approved by user"
    else
      match tool.execute (namedArguments action.arguments a.step_results) with
      | .ok result => .ok result
      | .error _ => .error "AttributeError: 'Text' object has no attribute 'escape'"

/-- `Agent._add_to_memory`.  When the response carries a thought with a
non-empty `to_do` but no `action`, the source dereferences
`response.action.tool_name` on `None` and raises `AttributeError`; the
assignment of the filtered old `to_do_steps` is immediately overwritten by
`thought.to_do[1:]` and is kept here as the dead binding `_filtered`.
`current_step` aliases `response.thought.to_do[0]`, so the in-place updates of
its `result`, `tool_name` and `arguments` are visible in the response that
`memory.append` stores: the appended entry is `mutatedResponse`, not the
response as it arrived. -/
def addToMemory (a : Agent) (response : Response) : Except String Agent :=
  match response.final_answer with
  | some _ => .ok { a with memory := a.memory ++ [response] }
  | none =>
    match response.thought with
    | none => .ok { a with memory := a.memory ++ [response] }
    | some thought =>
      match thought.to_do with
      | [] => .ok { a with memory := a.memory ++ [response] }
      | currentStep :: restToDo =>
        match response.action with
        | none => .error "AttributeError: 'NoneType' object has no attribute 'tool_name'"
        | some act =>
          let currentStepName := currentStep.name
          let updatedStep : Step :=
            { currentStep with
              result := some ("Result saved in $" ++ currentStepName ++ "$ variable"),
              tool_name := some act.tool_name,
              arguments := act.arguments }
          let mutatedResponse : Response :=
            { response with thought := some { thought with to_do := updatedStep :: restToDo } }
          let _filtered := a.to_do_steps.filter (fun s => s.name ≠ currentStepName)
          let stepResults :=
            match response.action_result with
            | some r => if r ≠ "" then updateAssoc currentStepName r a.step_results
                        else a.step_results
            | none => a.step_results
          .ok { a with
                done_steps := a.done_steps ++ [updatedStep],
                to_do_steps := restToDo,
                step_results := stepResults,
                memory := a.memory ++ [mutatedResponse] }

/-- `Agent._decide`. -/
def decideResponse (env : Env) (a : Agent) (response : Response) :
    Except String (Bool × Agent) :=
  let a := { a with state := .deciding }
  match response.thought with
  | none => .error "Response must contain a thought"
  | some _ =>
    match response.final_answer with
    | some ans => .ok (false, { a with state := .complete, final_answer := some ans })
    | none =>
      match response.action with
      | some act =>
        match handleAction env a act with
        | .error e => .error e
        | .ok resultStr =>
          match addToMemory a { response with action_result := some resultStr } with
          | .error e => .error e
          | .ok a' => .ok (true, a')
      | none =>
        match addToMemory a response with
        | .error e => .error e
        | .ok a' => .ok (true, a')

/-- `Agent._parse_response`: an extracted empty string is falsy, so it also
raises the no-content error. -/
def parseResponse (response : String) : Except String Response :=
  match firstXmlCodeBlock response with
  | some firstXml =>
    if firstXml ≠ "" then responseParserParse firstXml
    else .error ("No XML content found in response:\n " ++ response)
  | none => .error ("No XML content found in response:\n " ++ response)

/-- `Agent._think`: bump the iteration counter, call the model, parse, decide.
The returned `Bool` is Python's return value (continue?). -/
def think (env : Env) (a : Agent) : Except String (Bool × Agent) :=
  let a := { a with state := .thinking, current_iteration := a.current_iteration + 1 }
  if a.max_iterations < a.current_iteration then .ok (false, a)
  else
    match env.generate a.current_iteration with
    | .error e => .error e
    | .ok content =>
      match parseResponse content with
      | .error e => .error e
      | .ok response => decideResponse env a response

/-- `Agent._get_final_answer`: Python truthiness, so an empty stored answer
also yields the sentinel. -/
def getFinalAnswer (a : Agent) : String :=
  match a.final_answer with
  | some s => if s ≠ "" then s else "No answer found"
  | none => "No answer found"

/-- The `while` loop of `Agent._run_thinking_loop`, fuel-indexed.  Each pass
increments `current_iteration`, so `max_iterations - current_iteration` passes
suffice; an exception inside `_think` is caught and returned as the
`Error during thinking` string (the traceback abstracted to the message). -/
def runLoopAux (env : Env) : Nat → Agent → String × Agent
  | 0, a => (getFinalAnswer a, a)
  | fuel + 1, a =>
    if a.current_iteration < a.max_iterations then
      match think env a with
      | .error e => ("Error during thinking:\n" ++ e, { a with state := .error })
      | .ok (false, a') => (getFinalAnswer a', a')
      | .ok (true, a') => runLoopAux env fuel a'
    else (getFinalAnswer a, a)

/-- `Agent._run_thinking_loop`. -/
def runThinkingLoop (env : Env) (a : Agent) : String × Agent :=
  runLoopAux env (a.max_iterations - a.current_iteration) a

/-- `Agent._reset_state`. -/
def resetState (a : Agent) (query : String) : Agent :=
  { a with query := query, memory := [], final_answer := none, done_steps := [],
           step_results := [], to_do_steps := [], current_iteration := 0, state := .ready }

/-- `Agent.execute`.  The loop body already catches every exception, so the
outer `try/except` of `execute` has nothing to catch in this embedding; the
function is total and always returns a string (paired here with the final
state, which Python keeps on `self`). -/
def Agent.execute (env : Env) (a : Agent) (query : String) : String × Agent :=
  runThinkingLoop env (resetState a query)

/-! ## Concrete scenarios used by the claims -/

/-- The state `Agent.__init__(model, max_iterations)` builds. -/
def initAgent (maxIterations : Nat) : Agent :=
  { tools := [], memory := [], to_do_steps := [], done_steps := [], step_results := [],
    final_answer := none, query := "", max_iterations := maxIterations,
    current_iteration := 0, state := .ready }

/-- A reply whose parsed response carries an action and no final answer. -/
def actionReply : String :=
  "```xml\n<response><thought><reasoning>r</reasoning></thought><action><step_name>s1</step_name><tool_name>T</tool_name></action></response>\n```"

/-- A reply whose parsed response carries a final answer. -/
def finalReply : String :=
  "```xml\n<response><thought>math</thought><final_answer>42</final_answer></response>\n```"

/-- A model whose first reply has no extractable XML at all and whose later
replies are perfectly well-formed final answers. -/
def C2env : Env :=
  { generate := fun i => if i = 1 then .ok "hello" else .ok finalReply,
    approve := fun _ _ => true }

/-- A model that answers with a tool action on every iteration. -/
def C3env : Env :=
  { generate := fun _ => .ok actionReply, approve := fun _ _ => true }

def C4input : String := "<response><thought>t</thought></response>"

/-- An action-bearing response whose tool name matches no registered tool
(the agent's registry is empty in the scenarios below). -/
def C5input : String :=
  "<response><thought>think</thought><action><step_name>s</step_name><tool_name>NOPE</tool_name></action></response>"

def C5response : Response :=
  { thought := some { reasoning := "", to_do := [], done := [] },
    action := some { step_name := "s", tool_name := "NOPE", reason := "",
                     arguments := [], result := none },
    final_answer := none, action_result := none }

def C5action : Action :=
  { step_name := "s", tool_name := "NOPE", reason := "", arguments := [], result := none }

def mkStep (nm : String) : Step :=
  { name := nm, description := "d", reason := "because", result := none,
    tool_name := none, arguments := [], depends_on_steps := [] }

/-- An agent that has already completed a step named `a`. -/
def C8agent : Agent :=
  { initAgent 20 with done_steps := [mkStep "a"] }

/-- A model turn whose plan still lists a step named `a`, although `a` is
already among the done steps. -/
def C8resp : Response :=
  { thought := some { reasoning := "r", to_do := [mkStep "b", mkStep "a"], done := [] },
    action := some { step_name := "b", tool_name := "T", reason := "",
                     arguments := [], result := none },
    final_answer := none, action_result := some "res" }

/-- A tool with one declared argument of type `int`, whose execution just
reports the raw value it receives. -/
def intTool : Tool :=
  { name := "T", description := "d",
    arguments := [{ name := "n", type := .int, description := none,
                    required := true, default := none }],
    need_validation := false,
    execute := fun args => .ok ("got:" ++ (lookupAssoc args "n").getD "?") }

/-- A tool that always raises. -/
def failTool : Tool :=
  { name := "T", description := "d", arguments := [], need_validation := false,
    execute := fun _ => .error "boom" }

def C9agent : Agent := { initAgent 20 with tools := [("T", intTool)] }

def C9agentErr : Agent := { initAgent 20 with tools := [("T", failTool)] }

/-- An agent with budget 3 whose registered tool `T` raises on execution. -/
def C3agentErr : Agent := { initAgent 3 with tools := [("T", failTool)] }

/-- A tool call handing the non-integer string `abc` to the `int`-typed
argument `n`. -/
def C9action : Action :=
  { step_name := "s", tool_name := "T", reason := "", arguments := [("n", "abc")],
    result := none }

def plainEnv : Env := { generate := fun _ => .ok "", approve := fun _ _ => true }

/-- A completed action turn whose action result is the empty string. -/
def C10resp : Response :=
  { thought := some { reasoning := "r", to_do := [mkStep "s"], done := [] },
    action := some { step_name := "s", tool_name := "T", reason := "",
                     arguments := [], result := none },
    final_answer := none, action_result := some "" }

/-! ## Helper lemmas -/

theorem replaceAllFuel_of_no_dollar (pat rep : List Char) (hpat : pat.head? = some '$') :
    ∀ (fuel : Nat) (cs : List Char), (∀ c ∈ cs, c ≠ '$') →
      replaceAllFuel pat rep fuel cs = cs := by
  intro fuel
  induction fuel with
  | zero => intro cs _; rfl
  | succ n ih =>
    intro cs hcs
    cases cs with
    | nil => rfl
    | cons c rest =>
      obtain ⟨tl, htl⟩ : ∃ tl, pat = '$' :: tl := by
        cases pat with
        | nil => simp at hpat
        | cons p ptl => simp at hpat; exact ⟨ptl, by rw [hpat]⟩
      have hne : (pat ≠ [] && pat.isPrefixOf (c :: rest)) = false := by
        subst htl
        have hc : c ≠ '$' := hcs c (by simp)
        simp [List.isPrefixOf]
        intro hcontra
        exact absurd hcontra.symm hc
      simp only [replaceAllFuel, hne, Bool.false_eq_true, if_false]
      have := ih rest (fun d hd => hcs d (by simp [hd]))
      rw [this]

theorem pyReplace_dollar_of_no_dollar (t k v : String) (h : ∀ c ∈ t.data, c ≠ '$') :
    pyReplace t ("$" ++ k ++ "$") v = t := by
  unfold pyReplace replaceAll
  have hpat : ("$" ++ k ++ "$").data.head? = some '$' := by
    simp [String.data_append]
  rw [replaceAllFuel_of_no_dollar _ _ hpat _ _ h]

/-! ## Claims -/

/-- C6: extraction order is: first the content of the first ```` ```xml ````
fence (non-greedy); else the first `<response>...</response>` substring; else
parsing fails.  The claim is right about the intent, but the fallback regex is
written `[\\s\S]` (escaped backslash) instead of `[\s\S]`, so it matches only
whitespace-free interiors: on `"<response>a b</response>"` extraction returns
nothing and `_parse_response` raises the no-content error, while the
whitespace-free variant is still matched and the fence path works as
specified. -/
theorem C6_extraction_regex_bug :
    firstXmlCodeBlock "<response>a b</response>" = none
    ∧ parseResponse "<response>a b</response>" =
        .error "No XML content found in response:\n <response>a b</response>"
    ∧ firstXmlCodeBlock "<response>ab</response>" = some "<response>ab</response>"
    ∧ firstXmlCodeBlock "pre```xml\n<a>x</a>\n``` post <response>ab</response>" = some "<a>x</a>"
    ∧ firstXmlCodeBlock "no structured content" = none := by
  refine ⟨by decide, by decide, by decide, by decide, by decide⟩

/-- C7: interpolation replaces every `$name$` with the recorded value and
leaves unresolved names verbatim: the spec's own instance
`{"a": "X", "b": "Y"}` applied to `"$a$-$b$-$c$"` gives `"X-Y-$c$"`, and a
text without `$` markers is never altered. -/
theorem C7_interpolation :
    replaceInterpolatedVariables "$a$-$b$-$c$" [("a", "X"), ("b", "Y")] = "X-Y-$c$"
    ∧ ∀ (text : String) (vars : List (String × String)),
        (∀ c ∈ text.data, c ≠ '$') → replaceInterpolatedVariables text vars = text := by
  constructor
  · decide
  · intro text vars h
    induction vars generalizing text with
    | nil => rfl
    | cons kv rest ih =>
      have hstep : pyReplace text ("$" ++ kv.1 ++ "$") kv.2 = text :=
        pyReplace_dollar_of_no_dollar text kv.1 kv.2 h
      simp only [replaceInterpolatedVariables, List.foldl_cons] at *
      rw [hstep]
      exact ih text h

theorem C7_interpolation_witness :
    replaceInterpolatedVariables "plain text" [("a", "X")] = "plain text" :=
  C7_interpolation.2 "plain text" [("a", "X")] (by decide)

/-- C8 counterexample: with step `a` already done, merging a plan that still
lists `a` leaves `a` in `to_do_steps` (only the first entry is moved to done;
nothing is filtered against the done names), so a name present among the done
steps does appear in the merged to-do list. -/
theorem C8_counterexample :
    Except.map (fun a' => (a'.done_steps.map Step.name, a'.to_do_steps.map Step.name))
      (addToMemory C8agent C8resp) = .ok (["a", "b"], ["a"]) := by
  decide

/-- C8 amended: the merge moves the plan's first entry (updated with the tool
name, arguments and a `Result saved in $name$ variable` note) to the end of
`done_steps` and replaces `to_do_steps` wholesale with the remaining entries,
without filtering out names already present among the done steps. -/
theorem C8_merge_unfiltered (a : Agent) (r : Response) (t : Thought) (s : Step)
    (rest : List Step) (act : Action)
    (hfin : r.final_answer = none) (hth : r.thought = some t)
    (htodo : t.to_do = s :: rest) (hact : r.action = some act) :
    ∃ a', addToMemory a r = .ok a'
      ∧ a'.to_do_steps = rest
      ∧ a'.done_steps = a.done_steps ++
          [{ s with result := some ("Result saved in $" ++ s.name ++ "$ variable"),
                    tool_name := some act.tool_name, arguments := act.arguments }] := by
  simp only [addToMemory, hfin, hth, htodo, hact]
  exact ⟨_, rfl, rfl, rfl⟩

theorem C8_merge_unfiltered_witness :
    ∃ a', addToMemory C8agent C8resp = .ok a'
      ∧ a'.to_do_steps = [mkStep "a"]
      ∧ a'.done_steps = C8agent.done_steps ++
          [{ mkStep "b" with result := some ("Result saved in $" ++ (mkStep "b").name ++ "$ variable"),
                             tool_name := some "T", arguments := [] }] :=
  C8_merge_unfiltered C8agent C8resp _ (mkStep "b") [mkStep "a"] _ rfl rfl rfl rfl

/-- C9 counterexample: the argument `n` is declared with type `int` and the
supplied value `"abc"` is not an integer, yet no coercion (and no
coercion-failure observation) happens: the tool executes and receives the raw
interpolated string. -/
theorem C9_counterexample : handleAction plainEnv C9agent C9action = .ok "got:abc" := by
  decide

/-- C9 amended: no type coercion is performed before a tool executes; each
argument's interpolated value is passed to the tool as a string (keys
normalized by `-`/space → `_`) and the declared argument types (only `string`
and `int` exist in `ToolArgument`) are never consulted.  An exception the tool
raises — including one from a missing required argument — is not reported as
an observation either: the handler's `Text(error_trace).escape()` call raises
`AttributeError` (`rich.text.Text` has no `escape` method), which propagates
out of `_handle_action` and aborts the query's thinking loop. -/
theorem C9_no_coercion (env : Env) (a : Agent) (act : Action) (tool : Tool)
    (hfind : lookupTool a.tools (pyUpper act.tool_name) = some tool)
    (hval : tool.need_validation = false) :
    (handleAction env a act =
      match tool.execute (namedArguments act.arguments a.step_results) with
      | .ok result => .ok result
      | .error _ => .error "AttributeError: 'Text' object has no attribute 'escape'")
    ∧ (∀ (e : String) (r : Response) (t : Thought),
        tool.execute (namedArguments act.arguments a.step_results) = .error e →
        r.thought = some t → r.final_answer = none → r.action = some act →
        decideResponse env a r =
          .error "AttributeError: 'Text' object has no attribute 'escape'") := by
  have hmain : handleAction env a act =
      match tool.execute (namedArguments act.arguments a.step_results) with
      | .ok result => .ok result
      | .error _ => .error "AttributeError: 'Text' object has no attribute 'escape'" := by
    simp only [handleAction, hfind, hval, Bool.false_and]
    simp
  refine ⟨hmain, ?_⟩
  intro e r t hexec hth hfin hact
  have hAct : handleAction env a act
      = .error "AttributeError: 'Text' object has no attribute 'escape'" := by
    rw [hmain, hexec]
  obtain ⟨th, ac, fin, ar⟩ := r
  replace hth : th = some t := hth
  replace hfin : fin = none := hfin
  replace hact : ac = some act := hact
  subst hth
  subst hfin
  subst hact
  have hAct' : handleAction env { a with state := AgentStateTag.deciding } act
      = .error "AttributeError: 'Text' object has no attribute 'escape'" := hAct
  simp only [decideResponse, hAct']

theorem C9_no_coercion_witness :
    handleAction plainEnv C9agentErr C9action
      = .error "AttributeError: 'Text' object has no attribute 'escape'" := by
  rw [(C9_no_coercion plainEnv C9agentErr C9action failTool rfl rfl).1]
  decide

/-- C10: an entry is added to the step-results variable map only when the
recorded action result is a non-empty string; an empty (or absent) result
leaves the map unchanged, so later `$name$` references to that step stay
unresolved. -/
theorem C10_empty_result_no_variable (a : Agent) (r : Response) (t : Thought) (s : Step)
    (rest : List Step) (act : Action)
    (hfin : r.final_answer = none) (hth : r.thought = some t)
    (htodo : t.to_do = s :: rest) (hact : r.action = some act) :
    (r.action_result = some "" →
      Except.map Agent.step_results (addToMemory a r) = .ok a.step_results)
    ∧ (r.action_result = none →
      Except.map Agent.step_results (addToMemory a r) = .ok a.step_results)
    ∧ (∀ v, r.action_result = some v → v ≠ "" →
      Except.map Agent.step_results (addToMemory a r) = .ok (updateAssoc s.name v a.step_results)) := by
  refine ⟨?_, ?_, ?_⟩
  · intro hres
    simp only [addToMemory, hfin, hth, htodo, hact, hres, Except.map]
    simp
  · intro hres
    simp only [addToMemory, hfin, hth, htodo, hact, hres, Except.map]
  · intro v hres hne
    simp only [addToMemory, hfin, hth, htodo, hact, hres, Except.map]
    simp [hne]

theorem C10_empty_result_no_variable_witness :
    Except.map Agent.step_results (addToMemory (initAgent 20) C10resp) = .ok [] :=
  (C10_empty_result_no_variable (initAgent 20) C10resp _ (mkStep "s") [] _
    rfl rfl rfl rfl).1 rfl

/-- C5 counterexample: parsing performs no tool-name validation at all — the
parser does not even see the registry — so a response whose `action.tool_name`
(`NOPE`) matches no registered tool parses successfully instead of failing
validation. -/
theorem C5_counterexample :
    Except.map (fun r => r.action.map Action.tool_name) (responseParserParse C5input)
      = .ok (some "NOPE") := by
  decide

/-- C5 amended: the unknown tool is detected only when the action is handled:
`_handle_action` returns the observation `Tool not found: NAME` (upper-cased
name), `_decide` records it as the stored response's `action_result` (the
memory entry also carries the in-place update of the plan's first step when
the thought's `to_do` is non-empty), appends that entry to memory, and returns
`True` so the loop continues to the next iteration instead of crashing. -/
theorem C5_unknown_tool_observation (env : Env) (a : Agent) (r : Response) (t : Thought)
    (act : Action)
    (hlookup : lookupTool a.tools (pyUpper act.tool_name) = none)
    (hth : r.thought = some t) (hfin : r.final_answer = none) (hact : r.action = some act) :
    handleAction env a act = .ok ("Tool not found: " ++ pyUpper act.tool_name)
    ∧ ∃ a', decideResponse env a r = .ok (true, a')
        ∧ ∃ stored, a'.memory = a.memory ++ [stored]
            ∧ stored.action_result = some ("Tool not found: " ++ pyUpper act.tool_name) := by
  have hhandle : ∀ b : Agent, b.tools = a.tools →
      handleAction env b act = .ok ("Tool not found: " ++ pyUpper act.tool_name) := by
    intro b hb
    simp only [handleAction, hb, hlookup]
  refine ⟨hhandle a rfl, ?_⟩
  obtain ⟨th, ac, fin, ar⟩ := r
  replace hth : th = some t := hth
  replace hfin : fin = none := hfin
  replace hact : ac = some act := hact
  subst hth
  subst hfin
  subst hact
  have hs : handleAction env { a with state := AgentStateTag.deciding } act
      = .ok ("Tool not found: " ++ pyUpper act.tool_name) := hhandle _ rfl
  cases htodo : t.to_do with
  | nil =>
    exact ⟨_, by simp only [decideResponse, hs, addToMemory, htodo]; rfl, _, rfl, rfl⟩
  | cons s rest =>
    exact ⟨_, by simp only [decideResponse, hs, addToMemory, htodo]; rfl, _, rfl, rfl⟩

theorem C5_unknown_tool_observation_witness :
    handleAction plainEnv (initAgent 3) C5action = .ok "Tool not found: NOPE" := by
  rw [(C5_unknown_tool_observation plainEnv (initAgent 3) C5response
    { reasoning := "", to_do := [], done := [] } C5action rfl rfl rfl rfl).1]
  decide

/-! ## Loop lemmas -/

theorem getFinalAnswer_classified (a : Agent) :
    getFinalAnswer a = "No answer found" ∨ a.final_answer = some (getFinalAnswer a) := by
  cases h : a.final_answer with
  | none => left; simp [getFinalAnswer, h]
  | some s =>
    by_cases hs : s = ""
    · left; simp [getFinalAnswer, h, hs]
    · right; simp [getFinalAnswer, h, hs]

theorem runLoopAux_step (env : Env) (fuel : Nat) (a a' : Agent)
    (hlt : a.current_iteration < a.max_iterations)
    (hthink : think env a = .ok (true, a')) :
    runLoopAux env (fuel + 1) a = runLoopAux env fuel a' := by
  simp only [runLoopAux, if_pos hlt, hthink]

theorem runLoopAux_stop (env : Env) (fuel : Nat) (a : Agent)
    (hge : ¬ a.current_iteration < a.max_iterations) :
    runLoopAux env fuel a = (getFinalAnswer a, a) := by
  cases fuel with
  | zero => rfl
  | succ n => simp only [runLoopAux, if_neg hge]

theorem addToMemory_fields (a : Agent) (r : Response) (a' : Agent)
    (h : addToMemory a r = .ok a') :
    a'.current_iteration = a.current_iteration ∧ a'.max_iterations = a.max_iterations
    ∧ a'.final_answer = a.final_answer ∧ a'.state = a.state ∧ a'.tools = a.tools := by
  simp only [addToMemory] at h
  repeat' split at h
  all_goals cases h
  all_goals exact ⟨rfl, rfl, rfl, rfl, rfl⟩

theorem addToMemory_isOk (a : Agent) (r : Response) (act : Action)
    (hact : r.action = some act) : ∃ a', addToMemory a r = .ok a' := by
  cases hfin : r.final_answer with
  | some s => exact ⟨_, by simp only [addToMemory, hfin]; rfl⟩
  | none =>
    cases hth : r.thought with
    | none => exact ⟨_, by simp only [addToMemory, hfin, hth]; rfl⟩
    | some t =>
      cases htodo : t.to_do with
      | nil => exact ⟨_, by simp only [addToMemory, hfin, hth, htodo]; rfl⟩
      | cons s rest => exact ⟨_, by simp only [addToMemory, hfin, hth, htodo, hact]; rfl⟩

theorem decideResponse_ok_fields (env : Env) (a : Agent) (r : Response) (cont : Bool)
    (a' : Agent) (hfin : r.final_answer = none)
    (h : decideResponse env a r = .ok (cont, a')) :
    a'.current_iteration = a.current_iteration ∧ a'.max_iterations = a.max_iterations
    ∧ a'.final_answer = a.final_answer ∧ a'.tools = a.tools := by
  simp only [decideResponse, hfin] at h
  split at h
  · cases h
  · split at h
    · split at h
      · cases h
      · split at h
        · cases h
        · rename_i heq
          simp only [Except.ok.injEq, Prod.mk.injEq] at h
          obtain ⟨-, hx⟩ := h
          subst hx
          obtain ⟨h1, h2, h3, -, h5⟩ := addToMemory_fields _ _ _ heq
          exact ⟨h1, h2, h3, h5⟩
    · split at h
      · cases h
      · rename_i heq
        simp only [Except.ok.injEq, Prod.mk.injEq] at h
        obtain ⟨-, hx⟩ := h
        subst hx
        obtain ⟨h1, h2, h3, -, h5⟩ := addToMemory_fields _ _ _ heq
        exact ⟨h1, h2, h3, h5⟩

theorem lookupTool_mem (l : List (String × Tool)) (k : String) (tool : Tool)
    (h : lookupTool l k = some tool) : ∃ nm, (nm, tool) ∈ l := by
  unfold lookupTool at h
  cases hf : l.find? (fun kv => kv.1 = k) with
  | none => rw [hf] at h; cases h
  | some kv =>
    rw [hf] at h
    cases h
    refine ⟨kv.1, ?_⟩
    have hmem := List.mem_of_find?_eq_some hf
    simpa using hmem

/-- When every registered tool's `execute` returns normally, `_handle_action`
always produces an observation string (no branch reaches the broken exception
handler). -/
theorem handleAction_ok (env : Env) (b : Agent) (act : Action)
    (htools : ∀ p ∈ b.tools, ∀ args, ∃ res, Tool.execute p.2 args = .ok res) :
    ∃ s, handleAction env b act = .ok s := by
  cases hl : lookupTool b.tools (pyUpper act.tool_name) with
  | none => exact ⟨_, by simp only [handleAction, hl]; rfl⟩
  | some tool =>
    obtain ⟨nm, hmem⟩ := lookupTool_mem _ _ _ hl
    obtain ⟨res, hres⟩ := htools (nm, tool) hmem (namedArguments act.arguments b.step_results)
    have hres' : tool.execute (namedArguments act.arguments b.step_results) = .ok res := hres
    by_cases happ : (tool.need_validation && !env.approve (pyUpper act.tool_name) act) = true
    · exact ⟨_, by simp only [handleAction, hl, happ, if_true]; rfl⟩
    · replace happ : (tool.need_validation && !env.approve (pyUpper act.tool_name) act)
          = false := by
        cases hb : tool.need_validation && !env.approve (pyUpper act.tool_name) act
        · rfl
        · exact absurd hb happ
      exact ⟨res, by simp only [handleAction, hl, happ, Bool.false_eq_true, if_false, hres']⟩

theorem decideResponse_action_continue (env : Env) (a : Agent) (r : Response) (t : Thought)
    (act : Action) (hth : r.thought = some t) (hfin : r.final_answer = none)
    (hact : r.action = some act)
    (hha : ∃ s, handleAction env a act = .ok s) :
    ∃ a', decideResponse env a r = .ok (true, a')
      ∧ a'.current_iteration = a.current_iteration
      ∧ a'.max_iterations = a.max_iterations
      ∧ a'.final_answer = a.final_answer
      ∧ a'.tools = a.tools := by
  obtain ⟨th, ac, fin, ar⟩ := r
  replace hth : th = some t := hth
  replace hfin : fin = none := hfin
  replace hact : ac = some act := hact
  subst hth
  subst hfin
  subst hact
  obtain ⟨s, hs⟩ := hha
  have hs' : handleAction env { a with state := AgentStateTag.deciding } act = .ok s := hs
  have hok : ∃ a', decideResponse env a
      { thought := some t, action := some act, final_answer := none, action_result := ar }
      = .ok (true, a') := by
    cases htodo : t.to_do with
    | nil => exact ⟨_, by simp only [decideResponse, hs', addToMemory, htodo]; rfl⟩
    | cons s2 rest => exact ⟨_, by simp only [decideResponse, hs', addToMemory, htodo]; rfl⟩
  obtain ⟨a', ha'⟩ := hok
  obtain ⟨h1, h2, h3, h5⟩ := decideResponse_ok_fields env a _ true a' rfl ha'
  exact ⟨a', ha', h1, h2, h3, h5⟩

theorem think_action_continue (env : Env) (a : Agent) (c : String) (r : Response)
    (t : Thought) (act : Action)
    (hlt : a.current_iteration < a.max_iterations)
    (hgen : env.generate (a.current_iteration + 1) = .ok c)
    (hparse : parseResponse c = .ok r)
    (hth : r.thought = some t) (hfin : r.final_answer = none) (hact : r.action = some act)
    (hha : ∃ s, handleAction env a act = .ok s) :
    ∃ a', think env a = .ok (true, a')
      ∧ a'.current_iteration = a.current_iteration + 1
      ∧ a'.max_iterations = a.max_iterations
      ∧ a'.final_answer = a.final_answer
      ∧ a'.tools = a.tools := by
  have hni : ¬ (a.max_iterations < a.current_iteration + 1) := by omega
  have hha' : ∃ s, handleAction env
      { a with state := AgentStateTag.thinking,
               current_iteration := a.current_iteration + 1 } act = .ok s := hha
  obtain ⟨a', ha', h1, h2, h3, h5⟩ := decideResponse_action_continue env
    { a with state := .thinking, current_iteration := a.current_iteration + 1 } r t act
    hth hfin hact hha'
  refine ⟨a', ?_, h1, h2, h3, h5⟩
  simp only [think, hni, if_false, hgen, hparse]
  exact ha'

/-- C1: `execute` is total (the embedding returns a string on every input) and
its result is always one of: the genuine final answer recorded in the final
state, the `No answer found` sentinel, or an `Error during thinking` error
string carrying the exception text. -/
theorem C1_execute_total_classified (env : Env) (a : Agent) (q : String) :
    (Agent.execute env a q).1 = "No answer found"
    ∨ (∃ e, (Agent.execute env a q).1 = "Error during thinking:\n" ++ e)
    ∨ (Agent.execute env a q).2.final_answer = some (Agent.execute env a q).1 := by
  have main : ∀ (fuel : Nat) (b : Agent),
      (runLoopAux env fuel b).1 = "No answer found"
      ∨ (∃ e, (runLoopAux env fuel b).1 = "Error during thinking:\n" ++ e)
      ∨ (runLoopAux env fuel b).2.final_answer = some (runLoopAux env fuel b).1 := by
    intro fuel
    induction fuel with
    | zero =>
      intro b
      rcases getFinalAnswer_classified b with h | h
      · exact Or.inl h
      · exact Or.inr (Or.inr h)
    | succ n ih =>
      intro b
      by_cases hlt : b.current_iteration < b.max_iterations
      · simp only [runLoopAux, if_pos hlt]
        cases hth : think env b with
        | error e => exact Or.inr (Or.inl ⟨e, rfl⟩)
        | ok p =>
          obtain ⟨cont, b'⟩ := p
          cases cont
          · rcases getFinalAnswer_classified b' with h | h
            · exact Or.inl h
            · exact Or.inr (Or.inr h)
          · exact ih b'
      · simp only [runLoopAux, if_neg hlt]
        rcases getFinalAnswer_classified b with h | h
        · exact Or.inl h
        · exact Or.inr (Or.inr h)
  exact main _ _

/-- C2 counterexample: the first model reply has no extractable XML, every
later reply is a well-formed final answer, and the budget is 3; the claim
predicts a retry that would return `42`, but `execute` terminates at once with
the `Error during thinking` string and records nothing in memory. -/
theorem C2_counterexample :
    (Agent.execute C2env (initAgent 3) "q").1
      = "Error during thinking:\nNo XML content found in response:\n hello"
    ∧ (Agent.execute C2env (initAgent 3) "q").2.memory = [] := by
  exact ⟨rfl, rfl⟩

/-- C2 amended: when parsing of a model reply fails, the `ValueError`
propagates out of `_think`; the loop's handler catches it and immediately
returns the `Error during thinking` string — no observation is recorded, no
retry happens, and the remaining iteration budget is abandoned. -/
theorem C2_parse_failure_aborts (env : Env) (a : Agent) (c e : String)
    (hlt : a.current_iteration < a.max_iterations)
    (hgen : env.generate (a.current_iteration + 1) = .ok c)
    (hparse : parseResponse c = .error e) :
    (runThinkingLoop env a).1 = "Error during thinking:\n" ++ e
    ∧ (runThinkingLoop env a).2.memory = a.memory := by
  have hni : ¬ (a.max_iterations < a.current_iteration + 1) := by omega
  have hthink : think env a = .error e := by
    simp only [think, hni, if_false, hgen, hparse]
  obtain ⟨k, hk⟩ : ∃ k, a.max_iterations - a.current_iteration = k + 1 := by
    refine ⟨a.max_iterations - a.current_iteration - 1, ?_⟩
    omega
  unfold runThinkingLoop
  rw [hk]
  simp only [runLoopAux, if_pos hlt, hthink]
  simp

theorem C2_parse_failure_aborts_witness :
    (runThinkingLoop C2env (initAgent 3)).1
      = "Error during thinking:\nNo XML content found in response:\n hello"
    ∧ (runThinkingLoop C2env (initAgent 3)).2.memory = (initAgent 3).memory :=
  C2_parse_failure_aborts C2env (initAgent 3) "hello"
    "No XML content found in response:\n hello" (by decide) rfl (by decide)

set_option maxRecDepth 1000000 in
/-- C3 counterexample: within the claim's scenario (budget 3, every reply an
action-bearing response without a final answer) a registered tool that raises
refutes the claim: the broken exception handler's `AttributeError` aborts
`execute` during the first iteration with an `Error during thinking` string,
not after three iterations with the sentinel. -/
theorem C3_counterexample :
    (Agent.execute C3env C3agentErr "q").1
      = "Error during thinking:\nAttributeError: 'Text' object has no attribute 'escape'"
    ∧ (Agent.execute C3env C3agentErr "q").1 ≠ "No answer found" := by
  exact ⟨by decide, by decide⟩

/-- C3 amended: with `max_iterations = 3`, a model whose every reply parses to
a response carrying a thought and an action but no final answer, and every
registered tool returning normally (so each handled action yields an
observation — a raising tool would instead abort the call with an
`Error during thinking` string at that iteration), `execute` performs exactly
three thinking iterations (one model call each, final iteration counter 3) and
returns the `No answer found` sentinel instead of looping indefinitely. -/
theorem C3_iteration_budget (env : Env) (a : Agent) (q : String)
    (h3 : a.max_iterations = 3)
    (htools : ∀ p ∈ a.tools, ∀ args, ∃ res, Tool.execute p.2 args = .ok res)
    (hrep : ∀ i : Nat, ∃ c r t act, env.generate i = .ok c ∧ parseResponse c = .ok r
      ∧ r.thought = some t ∧ r.final_answer = none ∧ r.action = some act) :
    (Agent.execute env a q).1 = "No answer found"
    ∧ (Agent.execute env a q).2.current_iteration = 3 := by
  have hbmax : (resetState a q).max_iterations = 3 := h3
  have hbci : (resetState a q).current_iteration = 0 := rfl
  have hbfin : (resetState a q).final_answer = none := rfl
  have htools0 : ∀ p ∈ (resetState a q).tools, ∀ args, ∃ res, Tool.execute p.2 args = .ok res :=
    htools
  obtain ⟨c1, r1, t1, act1, hg1, hp1, ht1, hf1, ha1⟩ := hrep 1
  obtain ⟨c2, r2, t2, act2, hg2, hp2, ht2, hf2, ha2⟩ := hrep 2
  obtain ⟨c3, r3, t3, act3, hg3, hp3, ht3, hf3, ha3⟩ := hrep 3
  obtain ⟨b1, hth1, hci1, hmax1, hfin1, htl1⟩ :=
    think_action_continue env (resetState a q) c1 r1 t1 act1
      (by rw [hbci, hbmax]; decide) (by rw [hbci]; exact hg1) hp1 ht1 hf1 ha1
      (handleAction_ok env (resetState a q) act1 htools0)
  have htools1 : ∀ p ∈ b1.tools, ∀ args, ∃ res, Tool.execute p.2 args = .ok res := by
    rw [htl1]; exact htools0
  obtain ⟨b2, hth2, hci2, hmax2, hfin2, htl2⟩ :=
    think_action_continue env b1 c2 r2 t2 act2
      (by rw [hci1, hbci, hmax1, hbmax]; decide)
      (by rw [hci1, hbci]; exact hg2) hp2 ht2 hf2 ha2
      (handleAction_ok env b1 act2 htools1)
  have htools2 : ∀ p ∈ b2.tools, ∀ args, ∃ res, Tool.execute p.2 args = .ok res := by
    rw [htl2]; exact htools1
  obtain ⟨b3, hth3, hci3, hmax3, hfin3, htl3⟩ :=
    think_action_continue env b2 c3 r3 t3 act3
      (by rw [hci2, hci1, hbci, hmax2, hmax1, hbmax]; decide)
      (by rw [hci2, hci1, hbci]; exact hg3) hp3 ht3 hf3 ha3
      (handleAction_ok env b2 act3 htools2)
  have hci3' : b3.current_iteration = 3 := by rw [hci3, hci2, hci1, hbci]
  have hmax3' : b3.max_iterations = 3 := by rw [hmax3, hmax2, hmax1, hbmax]
  have hfin3' : b3.final_answer = none := by rw [hfin3, hfin2, hfin1, hbfin]
  have hrun : Agent.execute env a q = runLoopAux env 3 (resetState a q) := by
    unfold Agent.execute runThinkingLoop
    rw [hbmax, hbci]
  rw [hrun]
  rw [runLoopAux_step env 2 _ b1 (by rw [hbci, hbmax]; decide) hth1]
  rw [runLoopAux_step env 1 _ b2 (by rw [hci1, hbci, hmax1, hbmax]; decide) hth2]
  rw [runLoopAux_step env 0 _ b3 (by rw [hci2, hci1, hbci, hmax2, hmax1, hbmax]; decide) hth3]
  rw [runLoopAux_stop env 0 b3 (by rw [hci3', hmax3']; decide)]
  constructor
  · simp only [getFinalAnswer, hfin3']
  · exact hci3'

set_option maxRecDepth 1000000 in
theorem C3_iteration_budget_witness :
    (Agent.execute C3env (initAgent 3) "q").1 = "No answer found"
    ∧ (Agent.execute C3env (initAgent 3) "q").2.current_iteration = 3 := by
  refine C3_iteration_budget C3env (initAgent 3) "q" rfl ?_ ?_
  · intro p hp
    cases hp
  · intro i
    have hp : parseResponse actionReply = .ok
        { thought := some { reasoning := "r", to_do := [], done := [] },
          action := some { step_name := "s1", tool_name := "T", reason := "", arguments := [], result := none },
          final_answer := none, action_result := none } := by decide
    exact ⟨actionReply, _, _, _, rfl, hp, rfl, rfl, rfl⟩

/-! ## Parser lemmas for C4 -/

mutual
theorem findTagN_none_of_absent (tag : String) (e : XNode) (h : absentTagN tag e = true) :
    findTagN tag e = none := by
  cases e with
  | elem t x kids =>
    simp only [absentTagN, Bool.and_eq_true, Bool.not_eq_true', decide_eq_false_iff_not] at h
    simp only [findTagN, if_neg h.1]
    exact findTag_none_of_absent tag kids h.2
theorem findTag_none_of_absent (tag : String) (l : XNodes) (h : absentTag tag l = true) :
    findTag tag l = none := by
  cases l with
  | nil => rfl
  | cons e rest =>
    simp only [absentTag, Bool.and_eq_true] at h
    simp only [findTag, findTagN_none_of_absent tag e h.1]
    exact findTag_none_of_absent tag rest h.2
end

mutual
theorem absentTagN_of_findTagN (tag tg : String) (e r : XNode)
    (habs : absentTagN tag e = true) (hfind : findTagN tg e = some r) :
    absentTagN tag r = true := by
  cases e with
  | elem t x kids =>
    simp only [findTagN] at hfind
    by_cases ht : t = tg
    · rw [if_pos ht] at hfind
      cases hfind
      exact habs
    · rw [if_neg ht] at hfind
      simp only [absentTagN, Bool.and_eq_true] at habs
      exact absentTag_of_findTag tag tg kids r habs.2 hfind
theorem absentTag_of_findTag (tag tg : String) (l : XNodes) (r : XNode)
    (habs : absentTag tag l = true) (hfind : findTag tg l = some r) :
    absentTagN tag r = true := by
  cases l with
  | nil => exact Option.noConfusion (by simpa only [findTag] using hfind)
  | cons e rest =>
    simp only [absentTag, Bool.and_eq_true] at habs
    simp only [findTag] at hfind
    cases hf : findTagN tg e with
    | some r' =>
      rw [hf] at hfind
      cases hfind
      exact absentTagN_of_findTagN tag tg e r habs.1 hf
    | none =>
      rw [hf] at hfind
      exact absentTag_of_findTag tag tg rest r habs.2 hfind
end

theorem absentTagN_children (tag : String) (e : XNode) (h : absentTagN tag e = true) :
    absentTag tag e.children = true := by
  cases e with
  | elem t x kids =>
    simp only [absentTagN, Bool.and_eq_true] at h
    exact h.2

/-- The strict parser never succeeds: format 2 binds a plain string to the
`thought` field, and format 1 builds the `action` dict without the required
`step_name` key, so `Response(**data)` raises `ValidationError` either way. -/
theorem strict_parser_always_fails (s : String) :
    responseXmlParserParse s = .error "Malformed XML data."
    ∨ responseXmlParserParse s = .error "Validation error while creating Response object." := by
  cases hx : xmlFromstring s with
  | error e => left; simp only [responseXmlParserParse, hx]
  | ok root =>
    right
    by_cases hans : (etreeFind root "answer").isSome
    · simp [responseXmlParserParse, hx, hans, pydanticValidate]
    · simp [responseXmlParserParse, hx, hans, pydanticValidate]

theorem bs4Body_errors_without_action_or_answer (root : XNode)
    (hact : absentTagN "action" root = true)
    (hfa : absentTagN "final_answer" root = true) :
    ∃ e, bs4Body root = .error e := by
  cases hresp : findTag "response" (XNodes.cons root XNodes.nil) with
  | none => exact ⟨_, by simp only [bs4Body, hresp]; rfl⟩
  | some respElem =>
    have habsList : ∀ tg : String, absentTagN tg root = true →
        absentTag tg (XNodes.cons root XNodes.nil) = true := by
      intro tg h
      simp [absentTag, h]
    have habsA : absentTagN "action" respElem = true :=
      absentTag_of_findTag "action" "response" _ respElem (habsList _ hact) hresp
    have habsF : absentTagN "final_answer" respElem = true :=
      absentTag_of_findTag "final_answer" "response" _ respElem (habsList _ hfa) hresp
    have hfindA : findTag "action" respElem.children = none :=
      findTag_none_of_absent _ _ (absentTagN_children _ _ habsA)
    have hfindF : findTag "final_answer" respElem.children = none :=
      findTag_none_of_absent _ _ (absentTagN_children _ _ habsF)
    by_cases hempty : xEmpty respElem = true
    · exact ⟨_, by simp only [bs4Body, hresp, hempty, if_true]; rfl⟩
    · replace hempty : xEmpty respElem = false := by
        cases hxe : xEmpty respElem
        · rfl
        · exact absurd hxe hempty
      cases hth : findTag "thought" respElem.children with
      | none => exact ⟨_, by simp only [bs4Body, hresp, hempty, hth, Bool.false_eq_true, if_false]; rfl⟩
      | some thoughtElem =>
        by_cases hte : xEmpty thoughtElem = true
        · exact ⟨_, by simp only [bs4Body, hresp, hempty, hth, hte, Bool.false_eq_true,
            if_false, if_true]; rfl⟩
        · replace hte : xEmpty thoughtElem = false := by
            cases hxe : xEmpty thoughtElem
            · rfl
            · exact absurd hxe hte
          by_cases hts : pyStrip (xGetText thoughtElem) = ""
          · exact ⟨_, by simp only [bs4Body, hresp, hempty, hth, hte, hts, Bool.false_eq_true,
              if_false, if_pos rfl]; rfl⟩
          · refine ⟨"Missing action element", ?_⟩
            simp only [bs4Body, hresp, hempty, hth, hte, Bool.false_eq_true, if_false,
              if_neg hts, hfindF, hfindA, xTruthyOpt]

theorem bs4Body_ok_shape (root : XNode) (r : Response) (h : bs4Body root = .ok r) :
    r.action ≠ none ∨ r.final_answer ≠ none := by
  simp only [bs4Body] at h
  repeat' split at h
  all_goals cases h
  · right; simp
  · left; simp

theorem bs4Parse_ok_shape (s : String) (r : Response)
    (h : responseBs4XmlParserParse s = .ok r) :
    r.action ≠ none ∨ r.final_answer ≠ none := by
  simp only [responseBs4XmlParserParse] at h
  split at h
  · cases h
  · split at h
    · cases h
    · rename_i heq
      cases h
      exact bs4Body_ok_shape _ _ heq

/-- C4: for every input whose XML tree contains no `action`, no `final_answer`
and no `answer` element, parsing fails (with the combined two-parser error:
the strict parser always raises a validation error, and the lenient parser
then demands an `action` element when no truthy `final_answer` is present);
consequently a response with neither an action nor a final answer is never
produced by the parser. -/
theorem C4_no_action_no_answer_fails :
    (∀ (s : String) (t : XNode), xmlFromstring s = .ok t →
        absentTagN "action" t = true → absentTagN "final_answer" t = true →
        absentTagN "answer" t = true →
        responseParserParse s = .error "Failed to parse XML data with available parsers.")
    ∧ (∀ (s : String) (r : Response), responseParserParse s = .ok r →
        ¬(r.action = none ∧ r.final_answer = none)) := by
  constructor
  · intro s t hx hact hfa _hans
    obtain ⟨e, he⟩ := bs4Body_errors_without_action_or_answer t hact hfa
    have hbs : responseBs4XmlParserParse s = .error ("Error parsing XML data: " ++ e) := by
      simp only [responseBs4XmlParserParse, hx, he]
    rcases strict_parser_always_fails s with hs | hs
    · simp only [responseParserParse, hs, hbs]
    · simp only [responseParserParse, hs, hbs]
  · intro s r h hcontra
    obtain ⟨hact, hfa⟩ := hcontra
    rcases strict_parser_always_fails s with hs | hs
    all_goals
      simp only [responseParserParse, hs] at h
    all_goals
      cases hb : responseBs4XmlParserParse s with
    | error e => rw [hb] at h; cases h
    | ok r' =>
      rw [hb] at h
      cases h
      rcases bs4Parse_ok_shape s r hb with hsh | hsh
      · exact hsh hact
      · exact hsh hfa

set_option maxRecDepth 1000000 in
theorem C4_no_action_no_answer_fails_witness :
    responseParserParse C4input = .error "Failed to parse XML data with available parsers." := by
  exact C4_no_action_no_answer_fails.1 C4input
    (XNode.elem "response" none
      (XNodes.cons (XNode.elem "thought" (some "t") XNodes.nil) XNodes.nil))
    rfl (by decide) (by decide) (by decide)

end Quantafold
